import Mathlib

/-!
# Verification of the medical assistant's quality-assurance pipeline

Shallow embedding of the core of the repository (`core.py`, `utils.py`,
`cli.py`) in Lean 4.  Python strings are modelled as `List Char` (a Python
`str` is a sequence of Unicode code points, which is exactly `String.toList`
of the corresponding Lean literal).  The external generator (the Ollama HTTP
endpoint) is modelled as an oracle: a list of transport outcomes consumed one
per POST request, where `none` is a `requests` transport failure and
`some raw` is a successful response whose extracted message content is `raw`.
-/

namespace MedAssist

/-- Characters of a string literal.  Python `str` values are modelled as
`List Char` throughout; this helper converts Lean string literals. -/
def chars (x : String) : List Char := x.toList

/-! ## core.py: synonym table, fallback template, script conversion -/

/-- `core.py` `SYNONYMS`: static mapping from canonical keyword to its
colloquial variants; `SYNONYMS.get(key, [])` semantics (unknown keys give
the empty list). -/
def SYNONYMS (key : List Char) : List (List Char) :=
  if key = chars "肚子痛" then
    [chars "胃痛", chars "腹痛", chars "肚悶", chars "腸胃不舒服"]
  else if key = chars "拉肚子" then
    [chars "腹瀉", chars "大便水", chars "便稀", chars "跑廁所"]
  else if key = chars "頭暈" then
    [chars "暈眩", chars "暈頭轉向", chars "眼花"]
  else []

/-- `core.py` `fallback_response`: the deterministic template, an f-string
that embeds the user input between the brackets 「 and 」. -/
def fallback_response (user_input : List Char) : List Char :=
  chars "您好～我了解您提到「" ++ user_input ++
    chars "」，雖然我這裡沒有找到確切的建議，但請您不用太擔心。先多喝點溫開水，好好休息。如果症狀持續或讓您很不舒服，建議和家人一起去看醫師。如果還有其他不舒服，也可以再問我喔，我會陪著您 😊"

/-- Modelled from the spec: `to_traditional` in `core.py` delegates to the
external OpenCC "s2t" converter, which is not part of this repository.
Per spec §4.4 the Script Normalizer "converts any simplified-script
characters to their traditional-script equivalents" and is a pass-through
for text containing no convertible characters.  The embedding converts,
character by character, exactly the simplified glyphs the repository itself
enumerates (`SIMPLIFIED_CHARS`) to their traditional forms. -/
def s2t_char (c : Char) : Char :=
  if c = '后' then '後' else if c = '发' then '發' else if c = '为' then '為'
  else if c = '亿' then '億' else if c = '仅' then '僅' else if c = '厉' then '厲'
  else if c = '压' then '壓' else if c = '妈' then '媽' else if c = '属' then '屬'
  else if c = '层' then '層' else if c = '厂' then '廠' else if c = '广' then '廣'
  else if c = '庆' then '慶' else if c = '录' then '錄' else if c = '觉' then '覺'
  else c

/-- `core.py` `to_traditional` (see `s2t_char` for the modelling of the
external OpenCC converter). -/
def to_traditional (text : List Char) : List Char := text.map s2t_char

/-! ## core.py: validator -/

/-- `core.py` `SIMPLIFIED_CHARS` (a Python `set` of single characters;
only membership is ever used, so a list is a faithful model). -/
def SIMPLIFIED_CHARS : List Char := chars "后发为亿仅厉压妈属层厂广庆录觉"

/-- `core.py` `contains_simplified_chinese`. -/
def contains_simplified_chinese (text : List Char) : Bool :=
  text.any (fun c => SIMPLIFIED_CHARS.contains c)

/-- `core.py` `DANGER_WORDS` (a Python `set`; only `any`-membership of the
union with `NONSENSE_WORDS` is used, so a list is a faithful model). -/
def DANGER_WORDS : List (List Char) :=
  [chars "癌", chars "腫瘤", chars "敗血", chars "末期", chars "惡性",
   chars "器官衰竭", chars "死亡", chars "截肢", chars "痙攣", chars "糖尿病",
   chars "腎病變", chars "慢性病", chars "病發", chars "惡化"]

/-- `core.py` `NONSENSE_WORDS`. -/
def NONSENSE_WORDS : List (List Char) :=
  [chars "滴水", chars "肝膜病", chars "寄生處機", chars "胎婦與孕婦的危險"]

/-- Python's `w in text` substring test for each word of a collection:
`any(w in text for w in ws)`. -/
def hasWordIn (ws : List (List Char)) (text : List Char) : Bool :=
  ws.any (fun w => decide (w <:+: text))

/-- Python's `str.strip()`: remove leading and trailing whitespace. -/
def pyStrip (l : List Char) : List Char :=
  ((l.dropWhile Char.isWhitespace).reverse.dropWhile Char.isWhitespace).reverse

/-- `core.py` `is_valid_response`.  The source checks, in order:
`not text or not isinstance(text, str)` (for an actual `str` argument this
is just emptiness), membership of any word of `DANGER_WORDS | NONSENSE_WORDS`,
`contains_simplified_chinese`, and `len(text.strip()) < min_length`. -/
def is_valid_response (text : List Char) (min_length : Nat := 50) : Bool :=
  if text = [] then false
  else if hasWordIn (DANGER_WORDS ++ NONSENSE_WORDS) text then false
  else if contains_simplified_chinese text then false
  else if (pyStrip text).length < min_length then false
  else true

/-- The log messages `core.py` can emit while validating (`logging.warning`
calls inside `is_valid_response`).  The empty-text branch logs nothing, and
the danger-word and nonsense-word checks share one message because the source
tests their set union in a single `if`. -/
inductive ValidationLog where
  | dangerOrNonsenseLog
  | wrongScriptLog
  | tooShortLog
deriving DecidableEq, Repr

/-- `core.py` `is_valid_response` together with the log message it emits:
the returned value is the bare boolean of the source, the second component
is the `logging.warning` call (if any) executed on the taken branch. -/
def is_valid_response_logged (text : List Char) (min_length : Nat := 50) :
    Bool × Option ValidationLog :=
  if text = [] then (false, none)
  else if hasWordIn (DANGER_WORDS ++ NONSENSE_WORDS) text then
    (false, some .dangerOrNonsenseLog)
  else if contains_simplified_chinese text then (false, some .wrongScriptLog)
  else if (pyStrip text).length < min_length then (false, some .tooShortLog)
  else (true, none)

/-! ## core.py: knowledge store, formatter, lookup -/

/-- The `AdviceRecord` shape of a knowledge-base entry (spec §3); `core.py`
`format_response` reads exactly these four fields with `entry.get`. -/
structure AdviceRecord where
  possible_causes : List (List Char)
  self_care : List (List Char)
  when_to_see_doctor : List (List Char)
  encouragement : Option (List Char)
deriving DecidableEq, Repr

/-- One section body of `core.py` `format_response`: the item lines, or the
placeholder line when the list is empty. -/
def itemLines (items : List (List Char)) : List (List Char) :=
  if items = [] then [chars "   - （暫無資料）"]
  else items.map (fun item => chars "   - " ++ item)

/-- The encouragement line of `core.py` `format_response`
(`entry.get('encouragement', '請多注意休息喔！')`). -/
def encouragementLine (e : AdviceRecord) : List Char :=
  chars "   - " ++ e.encouragement.getD (chars "請多注意休息喔！")

/-- The `lines` list built by `core.py` `format_response` before joining. -/
def formatLines (e : AdviceRecord) : List (List Char) :=
  [chars "1. 可能原因："] ++ itemLines e.possible_causes
    ++ [chars "2. 在家可以怎麼做："] ++ itemLines e.self_care
    ++ [chars "3. 什麼時候需要看醫生："] ++ itemLines e.when_to_see_doctor
    ++ [chars "4. 鼓勵的話：", encouragementLine e]

/-- Python's `"\n".join(lines)`. -/
def joinLines : List (List Char) → List Char
  | [] => []
  | [l] => l
  | l :: l2 :: ls => l ++ '\n' :: joinLines (l2 :: ls)

/-- `core.py` `format_response`. -/
def format_response (e : AdviceRecord) : List Char :=
  joinLines (formatLines e)

/-- The condition of the `if` inside the lookup loop of
`lookup_medical_db`: `any(term in user_input for term in [key] + SYNONYMS.get(key, []))`. -/
def keywordMatches (key text : List Char) : Bool :=
  (key :: SYNONYMS key).any (fun term => decide (term <:+: text))

/-- The `for key, entry in medical_db.items(): ... return` loop of
`core.py` `lookup_medical_db`; a Python dict iterates in insertion order,
so the dict is modelled as an association list. -/
def lookupFind : List (List Char × AdviceRecord) → List Char → Option (List Char)
  | [], _ => none
  | (key, entry) :: rest, text =>
    if keywordMatches key text then some (format_response entry)
    else lookupFind rest text

/-- `core.py` `lookup_medical_db`.  `user_input : Option (List Char)` models
a Python argument that may be `None`; `if not user_input` is true exactly
for `None` and the empty string.  The input is stripped before the scan. -/
def lookup_medical_db (db : List (List Char × AdviceRecord))
    (user_input : Option (List Char)) : Option (List Char) :=
  match user_input with
  | none => none
  | some t => if t = [] then none else lookupFind db (pyStrip t)

/-- Modelled from the spec: `medical_knowledge.json` is data of this
repository that is not under `src/`.  Spec §8 fixes what the claims need:
the mapping holds a record for keyword 肚子痛 and one for 拉肚子, with
肚子痛 earlier in iteration order (its worked examples rely on exactly
that).  Field contents are representative; no claim depends on them. -/
def dbStomachache : AdviceRecord :=
  ⟨[chars "腸胃炎", chars "消化不良"], [chars "多喝溫開水", chars "清淡飲食"],
   [chars "持續劇痛超過一天", chars "伴隨發燒"], none⟩

/-- Modelled from the spec: the knowledge-base record for 拉肚子
(see `dbStomachache`). -/
def dbDiarrhea : AdviceRecord :=
  ⟨[chars "飲食不潔", chars "腸胃型感冒"], [chars "補充水分", chars "吃清淡稀飯"],
   [chars "一天超過六次", chars "精神變差"], none⟩

/-- Modelled from the spec: the loaded knowledge base, keys in iteration
order 肚子痛 then 拉肚子 (see `dbStomachache`). -/
def medical_db : List (List Char × AdviceRecord) :=
  [(chars "肚子痛", dbStomachache), (chars "拉肚子", dbDiarrhea)]

/-! ## utils.py: generator wrappers

The Ollama HTTP endpoint is an external collaborator.  It is modelled as an
oracle `List (Option (List Char))`: each `_post_request` consumes the next
element; `none` is a `requests.exceptions.RequestException` (timeout or
transport failure, `_post_request` returns `None`), `some raw` is a
successful response whose extracted content (`response.get("message",
{}).get("content", "")` for the CLI endpoint) is `raw`.  An exhausted oracle
behaves as transport failure. -/

/-- `utils.py` `FALLBACK_HINT`. -/
def FALLBACK_HINT : List Char :=
  chars "請用更簡單的方式說明，避免提到專業名詞與可怕疾病，語氣溫和，針對年長者，務必使用正體中文。"

/-- The string `utils.py` `query_ollama_cli` returns when `_post_request`
yields `None` (transport failure). -/
def systemErrorMsg : List Char := chars "⚠️ 系統錯誤，請稍後再試。"

/-- The string `utils.py` `query_ollama_cli` returns when the hint-augmented
retry still produces an invalid answer. -/
def apologyMsg : List Char := chars "抱歉，我目前無法給出合適的建議，請諮詢醫生。"

/-- `utils.py` `build_cli_prompt`. -/
def build_cli_prompt (user_question : List Char) : List Char :=
  chars "你是一位貼心的健康小幫手，專門幫助台灣的長輩理解身體小狀況。\n請針對以下提問，用溫和、簡單、白話的語氣說明，千萬不要提到癌症、腎衰竭、死亡等詞語。\n請使用正體中文。\n\n請遵照以下格式回答：\n1. 可能原因（請用「有可能是…也可能是…」的語氣，避免肯定診斷）\n2. 在家可以怎麼做（列 2~3 點，像是「多喝溫水」、「注意休息」）\n3. 什麼時候需要看醫生（舉 2 個簡單例子）\n4. 溫暖鼓勵語\n\n以「您好～」開頭，「如果還有其他不舒服，也可以再問我喔，我會陪著您 😊」結尾。\n\n問題如下：\n「" ++ user_question ++ chars "」\n"

/-- Result of a `query_ollama_cli` call: the returned string, the oracle
entries not yet consumed, and how many `_post_request` calls (generator
invocations) were made. -/
structure GenResult where
  reply : List Char
  rest : List (Option (List Char))
  calls : Nat
deriving DecidableEq, Repr

/-- `utils.py` `query_ollama_cli` with `use_fallback=True`: posts once; a
valid answer is returned through `to_traditional`, an invalid one yields the
apology, a transport failure yields the system-error string.  (On this
branch `use_fallback` is set, so there is no further recursion.) -/
def query_ollama_cli_retry (_prompt : List Char)
    (oracle : List (Option (List Char))) : GenResult :=
  match oracle with
  | some raw :: rest =>
    let answer := pyStrip raw
    if is_valid_response answer then ⟨to_traditional answer, rest, 1⟩
    else ⟨apologyMsg, rest, 1⟩
  | none :: rest => ⟨systemErrorMsg, rest, 1⟩
  | [] => ⟨systemErrorMsg, [], 1⟩

/-- `utils.py` `query_ollama_cli` with the default `use_fallback=False`:
posts once; a valid answer is returned through `to_traditional`; an invalid
answer triggers the internal retry with `prompt + "\n\n" + FALLBACK_HINT`
and `use_fallback=True`; a transport failure yields the system-error
string. -/
def query_ollama_cli (prompt : List Char)
    (oracle : List (Option (List Char))) : GenResult :=
  match oracle with
  | some raw :: rest =>
    let answer := pyStrip raw
    if is_valid_response answer then ⟨to_traditional answer, rest, 1⟩
    else
      let r := query_ollama_cli_retry (prompt ++ chars "\n\n" ++ FALLBACK_HINT) rest
      ⟨r.reply, r.rest, 1 + r.calls⟩
  | none :: rest => ⟨systemErrorMsg, rest, 1⟩
  | [] => ⟨systemErrorMsg, [], 1⟩

/-! ## cli.py: one loop iteration of `run_cli` -/

/-- Outcome of one question: the text printed to the user and the total
number of generator invocations. -/
structure CliOutcome where
  reply : List Char
  calls : Nat
deriving DecidableEq, Repr

/-- One iteration of the `while` loop of `cli.py` `run_cli`, for a
non-empty, already-stripped `question` that is not `exit`:
a knowledge-base hit is printed as-is (`print(db_reply)` and `continue`;
`format_response` never returns an empty string, so `if db_reply:` is
truth-y exactly on `Some`); otherwise `query_ollama_cli` is called on the
built prompt, called again with `"\n" + FALLBACK_HINT` appended if the
first reply fails `is_valid_response`, `fallback_response(question)` is
substituted if that reply also fails, and the result of
`to_traditional` is printed. -/
def run_cli_step (db : List (List Char × AdviceRecord))
    (oracle : List (Option (List Char))) (question : List Char) : CliOutcome :=
  match lookup_medical_db db (some question) with
  | some db_reply => ⟨db_reply, 0⟩
  | none =>
    let prompt := build_cli_prompt question
    let g1 := query_ollama_cli prompt oracle
    if is_valid_response g1.reply then ⟨to_traditional g1.reply, g1.calls⟩
    else
      let g2 := query_ollama_cli (prompt ++ chars "\n" ++ FALLBACK_HINT) g1.rest
      if is_valid_response g2.reply then
        ⟨to_traditional g2.reply, g1.calls + g2.calls⟩
      else
        ⟨to_traditional (fallback_response question), g1.calls + g2.calls⟩

/-! ## core.py: `load_medical_db` -/

/-- The observable states of `medical_knowledge.json` as `load_medical_db`
distinguishes them. -/
inductive KbFile where
  /-- `os.path.exists(DB_PATH)` is false. -/
  | missing
  /-- opening or reading the file raises `OSError`. -/
  | osError
  /-- the bytes are not valid UTF-8: reading the text stream inside
  `json.load` raises `UnicodeDecodeError`. -/
  | badEncoding
  /-- valid UTF-8 but not valid JSON: `json.load` raises
  `json.JSONDecodeError`. -/
  | badJson
  /-- a valid JSON object, decoding to `db`. -/
  | good (db : List (List Char × AdviceRecord))

/-- A Python exception escaping `load_medical_db`. -/
inductive PyExc where
  /-- `UnicodeDecodeError` is a `ValueError`; it is neither a
  `json.JSONDecodeError` nor an `OSError`, so the `except` clause of
  `load_medical_db` does not catch it. -/
  | unicodeDecodeError
deriving DecidableEq

/-- The log signals `load_medical_db` can emit. -/
inductive LoadLog where
  /-- `logging.warning("找不到 medical_knowledge.json，將使用空白知識庫")`. -/
  | missingWarning
  /-- `logging.error("無法讀取醫療知識庫: ...")`. -/
  | readError
deriving DecidableEq

/-- `core.py` `load_medical_db`: `Except.ok (db, logs)` is a normal return,
`Except.error` an escaping exception.  The `except (json.JSONDecodeError,
OSError)` clause turns those two failures into a logged empty mapping; a
`UnicodeDecodeError` raised while decoding a non-UTF-8 file matches neither
handler and propagates. -/
def load_medical_db : KbFile → Except PyExc (List (List Char × AdviceRecord) × List LoadLog)
  | .missing => .ok ([], [.missingWarning])
  | .osError => .ok ([], [.readError])
  | .badEncoding => .error .unicodeDecodeError
  | .badJson => .ok ([], [.readError])
  | .good db => .ok (db, [])

/-- A generator outcome with no usable text: a transport failure, or a
response whose stripped content fails `is_valid_response` (spec §5 treats
both alike). -/
def unusable (resp : Option (List Char)) : Bool :=
  match resp with
  | none => true
  | some raw => !is_valid_response (pyStrip raw)

/-- Every string `format_response` copies into its output: the items of the
three list fields and the encouragement (or its default). -/
def recordStrings (e : AdviceRecord) : List (List Char) :=
  e.possible_causes ++ e.self_care ++ e.when_to_see_doctor
    ++ [e.encouragement.getD (chars "請多注意休息喔！")]

/-! ## List infrastructure

A word that does not contain a given separator character cannot straddle
that separator in an append: any occurrence lies wholly on one side.  This
drives every proof that the fixed danger/nonsense words cannot arise from
gluing safe pieces together (the pieces are separated by newlines, list
bullets, or the 「 and 」 brackets, none of which occurs in any word). -/

theorem prefix_of_append_cons {α : Type} {w a b : List α} {c : α} (hc : c ∉ w)
    (h : w <+: a ++ c :: b) : w <+: a := by
  obtain ⟨t, ht⟩ := h
  rcases List.append_eq_append_iff.1 ht with ⟨k, hk1, _⟩ | ⟨k, hk1, hk2⟩
  · exact ⟨k, hk1.symm⟩
  · cases k with
    | nil => exact ⟨[], by simp [hk1]⟩
    | cons x k2 =>
      rw [List.cons_append] at hk2
      injection hk2 with hx _
      subst hx
      exact absurd (by rw [hk1]; simp) hc

theorem infix_append_cons {α : Type} {w a b : List α} {c : α} (hc : c ∉ w)
    (h : w <:+: a ++ c :: b) : w <:+: a ∨ w <:+: b := by
  induction a with
  | nil =>
    rw [List.nil_append] at h
    rcases List.infix_cons_iff.1 h with hp | hi
    · rcases List.prefix_cons_iff.1 hp with rfl | ⟨t, rfl, _⟩
      · exact Or.inl List.nil_infix
      · exact absurd (List.mem_cons_self c t) hc
    · exact Or.inr hi
  | cons x a2 ih =>
    rw [List.cons_append] at h
    rcases List.infix_cons_iff.1 h with hp | hi
    · refine Or.inl (List.IsPrefix.isInfix ?_)
      exact prefix_of_append_cons hc
        (show w <+: (x :: a2) ++ c :: b by rw [List.cons_append]; exact hp)
    · rcases ih hi with h1 | h2
      · exact Or.inl (List.infix_cons h1)
      · exact Or.inr h2

theorem length_dropWhile_append_cons {α : Type} (p : α → Bool) {c : α}
    (hc : p c = false) : ∀ (xs ys : List α),
    ys.length + 1 ≤ (List.dropWhile p (xs ++ c :: ys)).length
  | [], ys => by
    rw [List.nil_append, List.dropWhile_cons_of_neg (by simp [hc])]
    simp
  | x :: xs, ys => by
    by_cases hx : p x
    · rw [List.cons_append, List.dropWhile_cons_of_pos hx]
      exact length_dropWhile_append_cons p hc xs ys
    · rw [List.cons_append, List.dropWhile_cons_of_neg hx]
      simp [List.length_append]
      omega

/-- `pyStrip` keeps everything up to any non-whitespace character: a list
that starts with a non-whitespace character and has a non-whitespace
character `c` after its first `A.length + 1` characters strips to at least
`A.length + 2` characters. -/
theorem pyStrip_length_ge {A B : List Char} {a c : Char}
    (ha : a.isWhitespace = false) (hc : c.isWhitespace = false) :
    A.length + 2 ≤ (pyStrip (a :: (A ++ c :: B))).length := by
  unfold pyStrip
  rw [List.dropWhile_cons_of_neg (by simp [ha])]
  have h1 : (a :: (A ++ c :: B)).reverse = B.reverse ++ c :: (A.reverse ++ [a]) := by
    simp [List.reverse_cons, List.reverse_append, List.append_assoc]
  rw [List.length_reverse, h1]
  have h2 := length_dropWhile_append_cons Char.isWhitespace hc B.reverse (A.reverse ++ [a])
  simp [List.length_append, List.length_reverse] at h2 ⊢
  omega

/-! ## `joinLines` lemmas -/

theorem joinLines_cons_cons (l l2 : List Char) (ls : List (List Char)) :
    joinLines (l :: l2 :: ls) = l ++ '\n' :: joinLines (l2 :: ls) := rfl

theorem joinLines_append : ∀ (xs ys : List (List Char)), xs ≠ [] → ys ≠ [] →
    joinLines (xs ++ ys) = joinLines xs ++ '\n' :: joinLines ys
  | [], _, hx, _ => absurd rfl hx
  | [l], [], _, hy => absurd rfl hy
  | [l], y :: ys2, _, _ => by
    rw [List.singleton_append, joinLines_cons_cons]
    rfl
  | l :: l2 :: xs2, ys, _, hy => by
    rw [List.cons_append, List.cons_append, joinLines_cons_cons,
      ← List.cons_append, joinLines_append (l2 :: xs2) ys (by simp) hy,
      joinLines_cons_cons, List.append_assoc]
    rfl

theorem not_infix_joinLines {w : List Char} (hn : '\n' ∉ w) (hw : w ≠ []) :
    ∀ lines : List (List Char), (∀ l ∈ lines, ¬ w <:+: l) →
      ¬ w <:+: joinLines lines
  | [], _, hinf => hw (List.eq_nil_of_infix_nil hinf)
  | [l], h, hinf => h l (by simp) hinf
  | l :: l2 :: ls, h, hinf => by
    rw [joinLines_cons_cons] at hinf
    rcases infix_append_cons hn hinf with h1 | h2
    · exact h l (by simp) h1
    · exact not_infix_joinLines hn hw (l2 :: ls) (fun x hx => h x (by simp [hx])) h2

theorem joinLines_length_ge : ∀ lines : List (List Char),
    (lines.map List.length).sum ≤ (joinLines lines).length
  | [] => Nat.le_refl 0
  | [l] => by simp [joinLines]
  | l :: l2 :: ls => by
    rw [joinLines_cons_cons]
    have h := joinLines_length_ge (l2 :: ls)
    simp only [List.map_cons, List.sum_cons, List.length_append,
      List.length_cons] at h ⊢
    omega

theorem joinLines_cons_eq (c : Char) (l : List Char) (ls : List (List Char)) :
    ∃ t, joinLines ((c :: l) :: ls) = c :: t := by
  cases ls with
  | nil => exact ⟨l, rfl⟩
  | cons l2 ls2 => exact ⟨l ++ '\n' :: joinLines (l2 :: ls2), rfl⟩

/-! ## Boolean characterizations of the validator pieces -/

theorem hasWordIn_eq_false_iff {ws : List (List Char)} {t : List Char} :
    hasWordIn ws t = false ↔ ∀ w ∈ ws, ¬ w <:+: t := by
  simp [hasWordIn]

theorem contains_simplified_eq_false_iff {t : List Char} :
    contains_simplified_chinese t = false ↔ ∀ c ∈ t, ¬ c ∈ SIMPLIFIED_CHARS := by
  simp [contains_simplified_chinese]

theorem is_valid_response_iff {t : List Char} {n : Nat} :
    is_valid_response t n = true ↔
      t ≠ [] ∧ hasWordIn DANGER_WORDS t = false ∧ hasWordIn NONSENSE_WORDS t = false
        ∧ contains_simplified_chinese t = false ∧ n ≤ (pyStrip t).length := by
  have hsplit : hasWordIn (DANGER_WORDS ++ NONSENSE_WORDS) t
      = (hasWordIn DANGER_WORDS t || hasWordIn NONSENSE_WORDS t) := by
    simp [hasWordIn, List.any_append]
  unfold is_valid_response
  rw [hsplit]
  by_cases h1 : t = []
  · simp [h1]
  · by_cases hL : (pyStrip t).length < n
    · cases hD : hasWordIn DANGER_WORDS t <;>
        cases hN : hasWordIn NONSENSE_WORDS t <;>
          cases hS : contains_simplified_chinese t <;>
            simp [h1, hD, hN, hS, hL] <;> omega
    · cases hD : hasWordIn DANGER_WORDS t <;>
        cases hN : hasWordIn NONSENSE_WORDS t <;>
          cases hS : contains_simplified_chinese t <;>
            simp [h1, hD, hN, hS, hL] <;> omega

/-! ## `to_traditional` lemmas -/

theorem s2t_char_eq_self {c : Char} (hc : ¬ c ∈ SIMPLIFIED_CHARS) :
    s2t_char c = c := by
  simp only [SIMPLIFIED_CHARS, chars] at hc
  simp only [String.toList] at hc
  simp only [List.mem_cons, List.not_mem_nil, or_false, not_or] at hc
  obtain ⟨n1, n2, n3, n4, n5, n6, n7, n8, n9, n10, n11, n12, n13, n14, n15⟩ := hc
  simp [s2t_char, n1, n2, n3, n4, n5, n6, n7, n8, n9, n10, n11, n12, n13, n14, n15]

theorem to_traditional_eq_self {t : List Char}
    (h : contains_simplified_chinese t = false) : to_traditional t = t := by
  rw [contains_simplified_eq_false_iff] at h
  unfold to_traditional
  induction t with
  | nil => rfl
  | cons c t2 ih =>
    rw [List.map_cons, s2t_char_eq_self (h c (by simp)),
      ih (fun x hx => h x (by simp [hx]))]

theorem s2t_char_idem (c : Char) : s2t_char (s2t_char c) = s2t_char c := by
  by_cases hc : c ∈ SIMPLIFIED_CHARS
  · simp only [SIMPLIFIED_CHARS, chars] at hc
    simp only [String.toList] at hc
    simp only [List.mem_cons, List.not_mem_nil, or_false] at hc
    rcases hc with rfl | rfl | rfl | rfl | rfl | rfl | rfl | rfl | rfl | rfl | rfl | rfl | rfl | rfl | rfl <;> decide
  · rw [s2t_char_eq_self hc, s2t_char_eq_self hc]

theorem to_traditional_idem (t : List Char) :
    to_traditional (to_traditional t) = to_traditional t := by
  unfold to_traditional
  rw [List.map_map]
  exact List.map_congr_left (fun c _ => s2t_char_idem c)

/-! ## `format_response` structural lemmas -/

theorem itemLines_ne_nil (items : List (List Char)) : itemLines items ≠ [] := by
  unfold itemLines
  by_cases hi : items = []
  · simp [hi]
  · rw [if_neg hi]
    cases items with
    | nil => exact absurd rfl hi
    | cons i is => simp

theorem itemLines_cases {items : List (List Char)} {l : List Char}
    (h : l ∈ itemLines items) :
    l = chars "   - （暫無資料）" ∨ ∃ item ∈ items, l = chars "   - " ++ item := by
  unfold itemLines at h
  by_cases hi : items = []
  · rw [if_pos hi] at h
    simp at h
    exact Or.inl h
  · rw [if_neg hi] at h
    rcases List.mem_map.1 h with ⟨item, hmem, rfl⟩
    exact Or.inr ⟨item, hmem, rfl⟩

theorem itemLines_sum_ge (items : List (List Char)) :
    5 ≤ ((itemLines items).map List.length).sum := by
  unfold itemLines
  by_cases hi : items = []
  · rw [if_pos hi]
    decide
  · rw [if_neg hi]
    cases items with
    | nil => exact absurd rfl hi
    | cons i is =>
      simp only [List.map_cons, List.map_map, List.sum_cons, List.length_append]
      have : (chars "   - ").length = 5 := by decide
      omega

/-- Every line `format_response` emits is one of the five fixed lines or a
bulleted item line built from one of the record's strings. -/
theorem formatLines_cases {e : AdviceRecord} {l : List Char}
    (h : l ∈ formatLines e) :
    (l = chars "1. 可能原因：" ∨ l = chars "2. 在家可以怎麼做："
      ∨ l = chars "3. 什麼時候需要看醫生：" ∨ l = chars "4. 鼓勵的話："
      ∨ l = chars "   - （暫無資料）")
    ∨ ∃ item ∈ recordStrings e, l = chars "   - " ++ item := by
  unfold formatLines at h
  rcases List.mem_append.1 h with h | h
  · rcases List.mem_append.1 h with h | h
    · rcases List.mem_append.1 h with h | h
      · rcases List.mem_append.1 h with h | h
        · rcases List.mem_append.1 h with h | h
          · rcases List.mem_append.1 h with h | h
            · exact Or.inl (Or.inl (by simpa using h))
            · rcases itemLines_cases h with h1 | ⟨item, hm, rfl⟩
              · exact Or.inl (Or.inr (Or.inr (Or.inr (Or.inr h1))))
              · exact Or.inr ⟨item, by simp [recordStrings, hm], rfl⟩
          · exact Or.inl (Or.inr (Or.inl (by simpa using h)))
        · rcases itemLines_cases h with h1 | ⟨item, hm, rfl⟩
          · exact Or.inl (Or.inr (Or.inr (Or.inr (Or.inr h1))))
          · exact Or.inr ⟨item, by simp [recordStrings, hm], rfl⟩
      · exact Or.inl (Or.inr (Or.inr (Or.inl (by simpa using h))))
    · rcases itemLines_cases h with h1 | ⟨item, hm, rfl⟩
      · exact Or.inl (Or.inr (Or.inr (Or.inr (Or.inr h1))))
      · exact Or.inr ⟨item, by simp [recordStrings, hm], rfl⟩
  · rcases List.mem_cons.1 h with rfl | h
    · exact Or.inl (Or.inr (Or.inr (Or.inr (Or.inl rfl))))
    · have h2 := List.mem_singleton.1 h
      subst h2
      exact Or.inr ⟨e.encouragement.getD (chars "請多注意休息喔！"),
        by simp [recordStrings], rfl⟩

theorem mem_joinLines : ∀ (lines : List (List Char)) (c : Char),
    c ∈ joinLines lines → c = '\n' ∨ ∃ l ∈ lines, c ∈ l
  | [], c, h => absurd h (List.not_mem_nil c)
  | [l], c, h => Or.inr ⟨l, by simp, h⟩
  | l :: l2 :: ls, c, h => by
    rw [joinLines_cons_cons] at h
    rcases List.mem_append.1 h with h1 | h2
    · exact Or.inr ⟨l, by simp, h1⟩
    · rcases List.mem_cons.1 h2 with rfl | h3
      · exact Or.inl rfl
      · rcases mem_joinLines (l2 :: ls) c h3 with h4 | ⟨l3, hl3, hc⟩
        · exact Or.inl h4
        · exact Or.inr ⟨l3, List.mem_cons_of_mem l hl3, hc⟩

/-- A word containing no space and no dash that occurs in a bulleted item
line must occur in the item itself. -/
theorem not_infix_item_line {w item : List Char} (hsp : ¬ ' ' ∈ w)
    (hda : ¬ '-' ∈ w) (hitem : ¬ w <:+: item) :
    ¬ w <:+: chars "   - " ++ item := by
  intro h
  have hshape : chars "   - " ++ item = [' ', ' ', ' ', '-'] ++ ' ' :: item := rfl
  rw [hshape] at h
  rcases infix_append_cons hsp h with h1 | h2
  · rcases w with _ | ⟨c, w2⟩
    · exact hitem List.nil_infix
    · have hc : c ∈ [' ', ' ', ' ', '-'] := h1.subset (List.mem_cons_self c w2)
      simp at hc
      rcases hc with rfl | rfl
      · exact hsp (List.mem_cons_self _ _)
      · exact hda (List.mem_cons_self _ _)
  · exact hitem h2

/-- Decidable facts about the 18 danger and nonsense words: none occurs in
any fixed formatter line, and none contains a space, dash or newline. -/
theorem fixed_lines_wordfree : ∀ w ∈ DANGER_WORDS ++ NONSENSE_WORDS,
    ¬ w <:+: chars "1. 可能原因：" ∧ ¬ w <:+: chars "2. 在家可以怎麼做：" ∧
    ¬ w <:+: chars "3. 什麼時候需要看醫生：" ∧ ¬ w <:+: chars "4. 鼓勵的話：" ∧
    ¬ w <:+: chars "   - （暫無資料）" ∧
    ¬ ' ' ∈ w ∧ ¬ '-' ∈ w ∧ ¬ '\n' ∈ w ∧ w ≠ [] := by
  decide

theorem format_response_wordfree {e : AdviceRecord}
    (h : ∀ f ∈ recordStrings e,
      hasWordIn (DANGER_WORDS ++ NONSENSE_WORDS) f = false) :
    hasWordIn (DANGER_WORDS ++ NONSENSE_WORDS) (format_response e) = false := by
  rw [hasWordIn_eq_false_iff]
  intro w hw
  obtain ⟨ht1, ht2, ht3, ht4, hph, hsp, hda, hnl, hwne⟩ := fixed_lines_wordfree w hw
  refine not_infix_joinLines hnl hwne (formatLines e) ?_
  intro l hl
  rcases formatLines_cases hl with hfix | ⟨item, hitem, rfl⟩
  · rcases hfix with rfl | rfl | rfl | rfl | rfl <;> assumption
  · exact not_infix_item_line hsp hda
      (hasWordIn_eq_false_iff.1 (h item hitem) w hw)

theorem format_response_simpfree {e : AdviceRecord}
    (h : ∀ f ∈ recordStrings e, contains_simplified_chinese f = false) :
    contains_simplified_chinese (format_response e) = false := by
  rw [contains_simplified_eq_false_iff]
  intro c hc
  rcases mem_joinLines (formatLines e) c hc with rfl | ⟨l, hl, hcl⟩
  · decide
  · rcases formatLines_cases hl with hfix | ⟨item, hitem, rfl⟩
    · rcases hfix with rfl | rfl | rfl | rfl | rfl
      · exact (by decide : ∀ x ∈ chars "1. 可能原因：", ¬ x ∈ SIMPLIFIED_CHARS) c hcl
      · exact (by decide : ∀ x ∈ chars "2. 在家可以怎麼做：", ¬ x ∈ SIMPLIFIED_CHARS) c hcl
      · exact (by decide : ∀ x ∈ chars "3. 什麼時候需要看醫生：", ¬ x ∈ SIMPLIFIED_CHARS) c hcl
      · exact (by decide : ∀ x ∈ chars "4. 鼓勵的話：", ¬ x ∈ SIMPLIFIED_CHARS) c hcl
      · exact (by decide : ∀ x ∈ chars "   - （暫無資料）", ¬ x ∈ SIMPLIFIED_CHARS) c hcl
    · rcases List.mem_append.1 hcl with h1 | h2
      · exact (by decide : ∀ x ∈ chars "   - ", ¬ x ∈ SIMPLIFIED_CHARS) c h1
      · exact (contains_simplified_eq_false_iff.1 (h item hitem)) c h2

/-- The formatted text always keeps at least 50 characters after stripping:
everything from the leading `1` to the colon of the `4. 鼓勵的話：` title
survives `pyStrip`, and that span is at least 57 characters long. -/
theorem format_response_strip_length (e : AdviceRecord) :
    50 ≤ (pyStrip (format_response e)).length := by
  have hsplit : format_response e
      = joinLines ((((([chars "1. 可能原因："] ++ itemLines e.possible_causes)
            ++ [chars "2. 在家可以怎麼做："]) ++ itemLines e.self_care)
            ++ [chars "3. 什麼時候需要看醫生："]) ++ itemLines e.when_to_see_doctor)
          ++ '\n' :: (chars "4. 鼓勵的話：" ++ '\n' :: encouragementLine e) := by
    unfold format_response formatLines
    rw [show ((((([chars "1. 可能原因："] ++ itemLines e.possible_causes)
            ++ [chars "2. 在家可以怎麼做："]) ++ itemLines e.self_care)
            ++ [chars "3. 什麼時候需要看醫生："]) ++ itemLines e.when_to_see_doctor)
            ++ [chars "4. 鼓勵的話：", encouragementLine e]
        = ((((([chars "1. 可能原因："] ++ itemLines e.possible_causes)
            ++ [chars "2. 在家可以怎麼做："]) ++ itemLines e.self_care)
            ++ [chars "3. 什麼時候需要看醫生："]) ++ itemLines e.when_to_see_doctor)
            ++ [chars "4. 鼓勵的話：", encouragementLine e] from rfl]
    rw [joinLines_append _ [chars "4. 鼓勵的話：", encouragementLine e]
      (by simp) (by simp)]
    rfl
  obtain ⟨m, ms, hM⟩ : ∃ m ms,
      (((itemLines e.possible_causes ++ [chars "2. 在家可以怎麼做："])
        ++ itemLines e.self_care) ++ [chars "3. 什麼時候需要看醫生："])
        ++ itemLines e.when_to_see_doctor = m :: ms := by
    rcases hI : itemLines e.possible_causes with _ | ⟨a, as⟩
    · exact absurd hI (itemLines_ne_nil _)
    · refine ⟨a, (((as ++ [chars "2. 在家可以怎麼做："]) ++ itemLines e.self_care)
        ++ [chars "3. 什麼時候需要看醫生："]) ++ itemLines e.when_to_see_doctor, ?_⟩
      try rw [hI]
      simp only [List.cons_append]
  have hform : format_response e
      = '1' :: ((chars ". 可能原因：" ++ '\n' :: (joinLines (m :: ms)
            ++ '\n' :: chars "4. 鼓勵的話")) ++ '：' :: ('\n' :: encouragementLine e)) := by
    rw [hsplit, show chars "4. 鼓勵的話：" = chars "4. 鼓勵的話" ++ ['：'] by decide,
      show [chars "1. 可能原因："] ++ itemLines e.possible_causes
        = chars "1. 可能原因：" :: itemLines e.possible_causes from rfl]
    rw [show chars "1. 可能原因：" = '1' :: chars ". 可能原因：" by decide]
    rw [show (((('1' :: chars ". 可能原因：") :: itemLines e.possible_causes
            ++ [chars "2. 在家可以怎麼做："]) ++ itemLines e.self_care)
            ++ [chars "3. 什麼時候需要看醫生："]) ++ itemLines e.when_to_see_doctor
        = ('1' :: chars ". 可能原因：")
          :: ((((itemLines e.possible_causes ++ [chars "2. 在家可以怎麼做："])
            ++ itemLines e.self_care) ++ [chars "3. 什麼時候需要看醫生："])
            ++ itemLines e.when_to_see_doctor) by simp only [List.cons_append]]
    rw [hM, joinLines_cons_cons]
    simp only [List.cons_append, List.append_assoc, List.singleton_append,
      List.nil_append]
  have hp := pyStrip_length_ge
    (A := chars ". 可能原因：" ++ '\n' :: (joinLines (m :: ms)
      ++ '\n' :: chars "4. 鼓勵的話"))
    (B := '\n' :: encouragementLine e) (a := '1') (c := '：')
    (by decide) (by decide)
  rw [← hform] at hp
  have hsum := joinLines_length_ge (m :: ms)
  have h1 := itemLines_sum_ge e.possible_causes
  have h2 := itemLines_sum_ge e.self_care
  have h3 := itemLines_sum_ge e.when_to_see_doctor
  have hMsum : ((m :: ms).map List.length).sum
      = ((itemLines e.possible_causes).map List.length).sum + 11
        + ((itemLines e.self_care).map List.length).sum + 13
        + ((itemLines e.when_to_see_doctor).map List.length).sum := by
    rw [← hM]
    simp only [List.map_append, List.sum_append, List.map_cons, List.map_nil,
      List.sum_cons, List.sum_nil]
    have ht2 : (chars "2. 在家可以怎麼做：").length = 11 := by decide
    have ht3 : (chars "3. 什麼時候需要看醫生：").length = 13 := by decide
    omega
  have hA : (chars ". 可能原因：" ++ '\n' :: (joinLines (m :: ms)
      ++ '\n' :: chars "4. 鼓勵的話")).length
      = 7 + 1 + ((joinLines (m :: ms)).length + 1 + 7) := by
    simp only [List.length_append, List.length_cons]
    have hta : (chars ". 可能原因：").length = 7 := by decide
    have htb : (chars "4. 鼓勵的話").length = 7 := by decide
    omega
  omega

theorem hasWordIn_union_split {t : List Char}
    (h : hasWordIn (DANGER_WORDS ++ NONSENSE_WORDS) t = false) :
    hasWordIn DANGER_WORDS t = false ∧ hasWordIn NONSENSE_WORDS t = false := by
  rw [show hasWordIn (DANGER_WORDS ++ NONSENSE_WORDS) t
      = (hasWordIn DANGER_WORDS t || hasWordIn NONSENSE_WORDS t) by
    simp [hasWordIn, List.any_append]] at h
  exact ⟨(Bool.or_eq_false_iff.1 h).1, (Bool.or_eq_false_iff.1 h).2⟩

theorem ne_nil_of_strip_length {t : List Char}
    (h : 50 ≤ (pyStrip t).length) : t ≠ [] := by
  intro hnil
  rw [hnil] at h
  simp [pyStrip] at h

/-- A formatted record whose field strings are free of danger and nonsense
words and of simplified spot-check characters passes the validator. -/
theorem format_response_valid {e : AdviceRecord}
    (hw : ∀ f ∈ recordStrings e,
      hasWordIn (DANGER_WORDS ++ NONSENSE_WORDS) f = false)
    (hs : ∀ f ∈ recordStrings e, contains_simplified_chinese f = false) :
    is_valid_response (format_response e) = true := by
  rw [is_valid_response_iff]
  obtain ⟨hD, hN⟩ := hasWordIn_union_split (format_response_wordfree hw)
  exact ⟨ne_nil_of_strip_length (format_response_strip_length e), hD, hN,
    format_response_simpfree hs, format_response_strip_length e⟩

/-! ## `fallback_response` lemmas -/

theorem fallback_shape (input : List Char) :
    fallback_response input
      = chars "您好～我了解您提到" ++ '「' :: (input ++ '」' ::
          chars "，雖然我這裡沒有找到確切的建議，但請您不用太擔心。先多喝點溫開水，好好休息。如果症狀持續或讓您很不舒服，建議和家人一起去看醫師。如果還有其他不舒服，也可以再問我喔，我會陪著您 😊") := by
  unfold fallback_response
  rw [show chars "您好～我了解您提到「"
      = chars "您好～我了解您提到" ++ ['「'] by decide,
    show chars "」，雖然我這裡沒有找到確切的建議，但請您不用太擔心。先多喝點溫開水，好好休息。如果症狀持續或讓您很不舒服，建議和家人一起去看醫師。如果還有其他不舒服，也可以再問我喔，我會陪著您 😊"
      = '」' :: chars "，雖然我這裡沒有找到確切的建議，但請您不用太擔心。先多喝點溫開水，好好休息。如果症狀持續或讓您很不舒服，建議和家人一起去看醫師。如果還有其他不舒服，也可以再問我喔，我會陪著您 😊" by decide]
  simp [List.append_assoc]

set_option maxRecDepth 8192 in
/-- Decidable facts about the 18 danger and nonsense words against the two
fixed parts of the fallback template: no word contains either bracket, and
no word occurs in either fixed part. -/
theorem fallback_words_facts : ∀ w ∈ DANGER_WORDS ++ NONSENSE_WORDS,
    ¬ '「' ∈ w ∧ ¬ '」' ∈ w ∧ ¬ w <:+: chars "您好～我了解您提到"
      ∧ ¬ w <:+: chars "，雖然我這裡沒有找到確切的建議，但請您不用太擔心。先多喝點溫開水，好好休息。如果症狀持續或讓您很不舒服，建議和家人一起去看醫師。如果還有其他不舒服，也可以再問我喔，我會陪著您 😊" := by
  decide

theorem fallback_wordfree {input : List Char}
    (h : hasWordIn (DANGER_WORDS ++ NONSENSE_WORDS) input = false) :
    hasWordIn (DANGER_WORDS ++ NONSENSE_WORDS) (fallback_response input) = false := by
  rw [hasWordIn_eq_false_iff, fallback_shape]
  intro w hw hinf
  obtain ⟨hop, hcl, hhead, htail⟩ := fallback_words_facts w hw
  rcases infix_append_cons hop hinf with h1 | h2
  · exact hhead h1
  · rcases infix_append_cons hcl h2 with h3 | h4
    · exact hasWordIn_eq_false_iff.1 h w hw h3
    · exact htail h4

theorem fallback_simpfree {input : List Char}
    (h : contains_simplified_chinese input = false) :
    contains_simplified_chinese (fallback_response input) = false := by
  rw [contains_simplified_eq_false_iff] at h ⊢
  intro c hc
  rw [fallback_shape] at hc
  rcases List.mem_append.1 hc with h1 | h2
  · exact (by decide : ∀ x ∈ chars "您好～我了解您提到",
      ¬ x ∈ SIMPLIFIED_CHARS) c h1
  · rcases List.mem_cons.1 h2 with rfl | h3
    · decide
    · rcases List.mem_append.1 h3 with h4 | h5
      · exact h c h4
      · rcases List.mem_cons.1 h5 with rfl | h6
        · decide
        · exact (by decide : ∀ x ∈ chars "，雖然我這裡沒有找到確切的建議，但請您不用太擔心。先多喝點溫開水，好好休息。如果症狀持續或讓您很不舒服，建議和家人一起去看醫師。如果還有其他不舒服，也可以再問我喔，我會陪著您 😊",
            ¬ x ∈ SIMPLIFIED_CHARS) c h6

theorem fallback_strip_length (input : List Char) :
    50 ≤ (pyStrip (fallback_response input)).length := by
  have hform : fallback_response input
      = '您' :: ((chars "好～我了解您提到" ++ '「' :: (input ++ '」' ::
          chars "，雖然我這裡沒有找到確切的建議，但請您不用太擔心。先多喝點溫開水，好好休息。如果症狀持續或讓您很不舒服，建議和家人一起去看醫師。如果還有其他不舒服，也可以再問我喔，我會陪著您 "))
          ++ '😊' :: []) := by
    rw [fallback_shape,
      show chars "您好～我了解您提到" = '您' :: chars "好～我了解您提到" by decide,
      show chars "，雖然我這裡沒有找到確切的建議，但請您不用太擔心。先多喝點溫開水，好好休息。如果症狀持續或讓您很不舒服，建議和家人一起去看醫師。如果還有其他不舒服，也可以再問我喔，我會陪著您 😊"
        = chars "，雖然我這裡沒有找到確切的建議，但請您不用太擔心。先多喝點溫開水，好好休息。如果症狀持續或讓您很不舒服，建議和家人一起去看醫師。如果還有其他不舒服，也可以再問我喔，我會陪著您 "
          ++ '😊' :: [] by decide]
    simp [List.append_assoc]
  rw [hform]
  have hp := pyStrip_length_ge
    (A := chars "好～我了解您提到" ++ '「' :: (input ++ '」' ::
      chars "，雖然我這裡沒有找到確切的建議，但請您不用太擔心。先多喝點溫開水，好好休息。如果症狀持續或讓您很不舒服，建議和家人一起去看醫師。如果還有其他不舒服，也可以再問我喔，我會陪著您 "))
    (B := ([] : List Char)) (a := '您') (c := '😊') (by decide) (by decide)
  have hlen : (chars "好～我了解您提到").length = 8 := by decide
  have hlen2 : (chars "，雖然我這裡沒有找到確切的建議，但請您不用太擔心。先多喝點溫開水，好好休息。如果症狀持續或讓您很不舒服，建議和家人一起去看醫師。如果還有其他不舒服，也可以再問我喔，我會陪著您 ").length = 88 := by decide
  simp only [List.length_append, List.length_cons, hlen, hlen2] at hp
  omega

theorem fallback_response_valid {input : List Char}
    (hWords : hasWordIn (DANGER_WORDS ++ NONSENSE_WORDS) input = false)
    (hSimp : contains_simplified_chinese input = false) :
    is_valid_response (fallback_response input) = true := by
  rw [is_valid_response_iff]
  obtain ⟨hD, hN⟩ := hasWordIn_union_split (fallback_wordfree hWords)
  exact ⟨ne_nil_of_strip_length (fallback_strip_length input), hD, hN,
    fallback_simpfree hSimp, fallback_strip_length input⟩

theorem input_infix_fallback (input : List Char) :
    input <:+: fallback_response input :=
  ⟨chars "您好～我了解您提到「",
    chars "」，雖然我這裡沒有找到確切的建議，但請您不用太擔心。先多喝點溫開水，好好休息。如果症狀持續或讓您很不舒服，建議和家人一起去看醫師。如果還有其他不舒服，也可以再問我喔，我會陪著您 😊", rfl⟩

/-! ## `lookup_medical_db` lemmas -/

theorem lookupFind_eq_find : ∀ (db : List (List Char × AdviceRecord)) (t : List Char),
    lookupFind db t
      = (db.find? (fun p => keywordMatches p.1 t)).map (fun p => format_response p.2)
  | [], _ => rfl
  | (k, e) :: rest, t => by
    unfold lookupFind
    by_cases h : keywordMatches k t
    · rw [if_pos (by simpa using h), List.find?_cons_of_pos _ (by simpa using h)]
      rfl
    · rw [if_neg (by simpa using h), List.find?_cons_of_neg _ (by simpa using h)]
      exact lookupFind_eq_find rest t

theorem lookup_eq_some_format {db : List (List Char × AdviceRecord)}
    {i : Option (List Char)} {r : List Char}
    (h : lookup_medical_db db i = some r) :
    ∃ e : AdviceRecord, r = format_response e := by
  match i with
  | none => simp [lookup_medical_db] at h
  | some t =>
    simp only [lookup_medical_db] at h
    by_cases ht : t = []
    · rw [if_pos ht] at h
      exact absurd h (by simp)
    · rw [if_neg ht, lookupFind_eq_find] at h
      rcases Option.map_eq_some'.1 h with ⟨p, _, hr⟩
      exact ⟨p.2, hr.symm⟩

theorem format_response_head (e : AdviceRecord) :
    ∃ t, format_response e = '1' :: t := by
  obtain ⟨ls, hls⟩ : ∃ ls, formatLines e = ('1' :: chars ". 可能原因：") :: ls := by
    refine ⟨itemLines e.possible_causes ++ (chars "2. 在家可以怎麼做："
      :: (itemLines e.self_care ++ (chars "3. 什麼時候需要看醫生："
      :: (itemLines e.when_to_see_doctor
        ++ [chars "4. 鼓勵的話：", encouragementLine e])))), ?_⟩
    unfold formatLines
    rw [show chars "1. 可能原因：" = '1' :: chars ". 可能原因：" by decide]
    simp only [List.cons_append, List.nil_append, List.append_assoc]
  rw [format_response, hls]
  exact joinLines_cons_eq '1' (chars ". 可能原因：") ls

theorem format_response_ne_sysError (e : AdviceRecord) :
    format_response e ≠ systemErrorMsg := by
  obtain ⟨t, ht⟩ := format_response_head e
  rw [ht, show systemErrorMsg = '⚠' :: chars "️ 系統錯誤，請稍後再試。" by decide]
  intro h
  injection h with h1
  exact absurd h1 (by decide)

theorem format_response_ne_apology (e : AdviceRecord) :
    format_response e ≠ apologyMsg := by
  obtain ⟨t, ht⟩ := format_response_head e
  rw [ht, show apologyMsg = '抱' :: chars "歉，我目前無法給出合適的建議，請諮詢醫生。" by decide]
  intro h
  injection h with h1
  exact absurd h1 (by decide)

/-! ## Generator wrapper lemmas -/

theorem sysError_invalid : is_valid_response systemErrorMsg = false := by decide

theorem apology_invalid : is_valid_response apologyMsg = false := by decide

theorem query_retry_calls (prompt : List Char) (oracle : List (Option (List Char))) :
    (query_ollama_cli_retry prompt oracle).calls = 1 := by
  unfold query_ollama_cli_retry
  cases oracle with
  | nil => rfl
  | cons r rest =>
    cases r with
    | none => rfl
    | some raw =>
      by_cases h : is_valid_response (pyStrip raw) <;> simp [h]

theorem query_calls_le (prompt : List Char) (oracle : List (Option (List Char))) :
    (query_ollama_cli prompt oracle).calls ≤ 2 := by
  unfold query_ollama_cli
  cases oracle with
  | nil => exact Nat.le_succ 1
  | cons r rest =>
    cases r with
    | none => exact Nat.le_succ 1
    | some raw =>
      by_cases h : is_valid_response (pyStrip raw) <;>
        simp [h, query_retry_calls]

theorem query_retry_cases (prompt : List Char) (oracle : List (Option (List Char))) :
    (∃ raw, some raw ∈ oracle ∧ is_valid_response (pyStrip raw) = true
      ∧ (query_ollama_cli_retry prompt oracle).reply = to_traditional (pyStrip raw))
    ∨ (query_ollama_cli_retry prompt oracle).reply = apologyMsg
    ∨ (query_ollama_cli_retry prompt oracle).reply = systemErrorMsg := by
  unfold query_ollama_cli_retry
  cases oracle with
  | nil => exact Or.inr (Or.inr rfl)
  | cons r rest =>
    cases r with
    | none => exact Or.inr (Or.inr rfl)
    | some raw =>
      by_cases h : is_valid_response (pyStrip raw)
      · exact Or.inl ⟨raw, by simp, h, by simp [h]⟩
      · refine Or.inr (Or.inl ?_)
        simp [h]

theorem query_cases (prompt : List Char) (oracle : List (Option (List Char))) :
    (∃ raw, some raw ∈ oracle ∧ is_valid_response (pyStrip raw) = true
      ∧ (query_ollama_cli prompt oracle).reply = to_traditional (pyStrip raw))
    ∨ (query_ollama_cli prompt oracle).reply = apologyMsg
    ∨ (query_ollama_cli prompt oracle).reply = systemErrorMsg := by
  unfold query_ollama_cli
  cases oracle with
  | nil => exact Or.inr (Or.inr rfl)
  | cons r rest =>
    cases r with
    | none => exact Or.inr (Or.inr rfl)
    | some raw =>
      by_cases h : is_valid_response (pyStrip raw)
      · exact Or.inl ⟨raw, by simp, h, by simp [h]⟩
      · rcases query_retry_cases (prompt ++ (chars "\n\n" ++ FALLBACK_HINT)) rest
          with ⟨raw2, hm, hv, hr⟩ | hr | hr
        · exact Or.inl ⟨raw2, by simp [hm], hv, by simp [h, hr]⟩
        · exact Or.inr (Or.inl (by simp [h, hr]))
        · exact Or.inr (Or.inr (by simp [h, hr]))

theorem query_rest_suffix (prompt : List Char) (oracle : List (Option (List Char))) :
    (query_ollama_cli prompt oracle).rest <:+ oracle := by
  unfold query_ollama_cli
  cases oracle with
  | nil => exact List.nil_suffix
  | cons r rest =>
    cases r with
    | none => exact List.suffix_cons none rest
    | some raw =>
      by_cases h : is_valid_response (pyStrip raw)
      · simpa [h] using List.suffix_cons (some raw) rest
      · simp only [h, if_false]
        unfold query_ollama_cli_retry
        cases rest with
        | nil => exact List.nil_suffix
        | cons r2 rest2 =>
          cases r2 with
          | none =>
            exact List.IsSuffix.trans (List.suffix_cons none rest2)
              (List.suffix_cons (some raw) (none :: rest2))
          | some raw2 =>
            by_cases h2 : is_valid_response (pyStrip raw2) <;>
              · simp only [h2, if_true, if_false]
                exact List.IsSuffix.trans (List.suffix_cons (some raw2) rest2)
                  (List.suffix_cons (some raw) (some raw2 :: rest2))

theorem query_retry_unusable {oracle : List (Option (List Char))}
    (h : ∀ resp ∈ oracle, unusable resp = true) (prompt : List Char) :
    (query_ollama_cli_retry prompt oracle).reply = apologyMsg
      ∨ (query_ollama_cli_retry prompt oracle).reply = systemErrorMsg := by
  rcases query_retry_cases prompt oracle with ⟨raw, hm, hv, _⟩ | hr | hr
  · have := h (some raw) hm
    simp [unusable, hv] at this
  · exact Or.inl hr
  · exact Or.inr hr

theorem query_unusable {oracle : List (Option (List Char))}
    (h : ∀ resp ∈ oracle, unusable resp = true) (prompt : List Char) :
    (query_ollama_cli prompt oracle).reply = apologyMsg
      ∨ (query_ollama_cli prompt oracle).reply = systemErrorMsg := by
  rcases query_cases prompt oracle with ⟨raw, hm, hv, _⟩ | hr | hr
  · have := h (some raw) hm
    simp [unusable, hv] at this
  · exact Or.inl hr
  · exact Or.inr hr

/-! ## `run_cli_step` lemmas -/

theorem run_cli_step_db_hit {db : List (List Char × AdviceRecord)}
    {oracle : List (Option (List Char))} {question r : List Char}
    (h : lookup_medical_db db (some question) = some r) :
    run_cli_step db oracle question = ⟨r, 0⟩ := by
  unfold run_cli_step
  rw [h]

theorem run_cli_step_miss (db : List (List Char × AdviceRecord))
    (oracle : List (Option (List Char))) (question : List Char)
    (hdb : lookup_medical_db db (some question) = none) :
    run_cli_step db oracle question
      = (let g1 := query_ollama_cli (build_cli_prompt question) oracle
         if is_valid_response g1.reply then
           (⟨to_traditional g1.reply, g1.calls⟩ : CliOutcome)
         else
           let g2 := query_ollama_cli
             (build_cli_prompt question ++ chars "\n" ++ FALLBACK_HINT) g1.rest
           if is_valid_response g2.reply then
             ⟨to_traditional g2.reply, g1.calls + g2.calls⟩
           else
             ⟨to_traditional (fallback_response question), g1.calls + g2.calls⟩) := by
  unfold run_cli_step
  rw [hdb]

theorem run_cli_step_calls_le (db : List (List Char × AdviceRecord))
    (oracle : List (Option (List Char))) (question : List Char) :
    (run_cli_step db oracle question).calls ≤ 4 := by
  cases hdb : lookup_medical_db db (some question) with
  | some r =>
    rw [run_cli_step_db_hit hdb]
    exact Nat.zero_le 4
  | none =>
    rw [run_cli_step_miss db oracle question hdb]
    have h1 := query_calls_le (build_cli_prompt question) oracle
    have h2 := query_calls_le
      (build_cli_prompt question ++ (chars "\n" ++ FALLBACK_HINT))
      (query_ollama_cli (build_cli_prompt question) oracle).rest
    by_cases hv : is_valid_response
        (query_ollama_cli (build_cli_prompt question) oracle).reply
    · simp [hv]
      omega
    · by_cases hv2 : is_valid_response (query_ollama_cli
          (build_cli_prompt question ++ (chars "\n" ++ FALLBACK_HINT))
          (query_ollama_cli (build_cli_prompt question) oracle).rest).reply <;>
        simp [hv, hv2] <;> omega

theorem run_cli_step_reply_cases (db : List (List Char × AdviceRecord))
    (oracle : List (Option (List Char))) (question : List Char) :
    (∃ e : AdviceRecord, (run_cli_step db oracle question).reply = format_response e)
    ∨ is_valid_response (run_cli_step db oracle question).reply = true
    ∨ (run_cli_step db oracle question).reply
        = to_traditional (fallback_response question) := by
  cases hdb : lookup_medical_db db (some question) with
  | some r =>
    obtain ⟨e, he⟩ := lookup_eq_some_format hdb
    rw [run_cli_step_db_hit hdb]
    exact Or.inl ⟨e, he⟩
  | none =>
    rw [run_cli_step_miss db oracle question hdb]
    by_cases h1 : is_valid_response
        (query_ollama_cli (build_cli_prompt question) oracle).reply
    · refine Or.inr (Or.inl ?_)
      simp only [h1, if_true]
      rw [to_traditional_eq_self (is_valid_response_iff.1 h1).2.2.2.1]
      exact h1
    · by_cases h2 : is_valid_response (query_ollama_cli
          (build_cli_prompt question ++ (chars "\n" ++ FALLBACK_HINT))
          (query_ollama_cli (build_cli_prompt question) oracle).rest).reply
      · refine Or.inr (Or.inl ?_)
        simp only [h1, if_false]
        simp only [List.append_assoc] at h2 ⊢
        simp only [h2, if_true]
        rw [to_traditional_eq_self (is_valid_response_iff.1 h2).2.2.2.1]
        exact h2
      · refine Or.inr (Or.inr ?_)
        simp [h1, h2]

theorem run_cli_step_all_unusable {db : List (List Char × AdviceRecord)}
    {oracle : List (Option (List Char))} {question : List Char}
    (hdb : lookup_medical_db db (some question) = none)
    (hun : ∀ resp ∈ oracle, unusable resp = true) :
    (run_cli_step db oracle question).reply
      = to_traditional (fallback_response question) := by
  rw [run_cli_step_miss db oracle question hdb]
  have h1 : is_valid_response
      (query_ollama_cli (build_cli_prompt question) oracle).reply = false := by
    rcases query_unusable hun (build_cli_prompt question) with h | h <;> rw [h]
    · exact apology_invalid
    · exact sysError_invalid
  have hrest : ∀ resp ∈ (query_ollama_cli (build_cli_prompt question) oracle).rest,
      unusable resp = true :=
    fun resp hm => hun resp ((query_rest_suffix _ _).sublist.subset hm)
  have h2 : is_valid_response (query_ollama_cli
      (build_cli_prompt question ++ (chars "\n" ++ FALLBACK_HINT))
      (query_ollama_cli (build_cli_prompt question) oracle).rest).reply = false := by
    rcases query_unusable hrest
        (build_cli_prompt question ++ (chars "\n" ++ FALLBACK_HINT)) with h | h <;>
      rw [h]
    · exact apology_invalid
    · exact sysError_invalid
  simp [h1, h2]

theorem run_cli_step_ne_errors (db : List (List Char × AdviceRecord))
    (oracle : List (Option (List Char))) (question : List Char) :
    (run_cli_step db oracle question).reply ≠ systemErrorMsg
      ∧ (run_cli_step db oracle question).reply ≠ apologyMsg := by
  rcases run_cli_step_reply_cases db oracle question with ⟨e, he⟩ | hv | hf
  · exact ⟨by rw [he]; exact format_response_ne_sysError e,
      by rw [he]; exact format_response_ne_apology e⟩
  · constructor <;> intro hcontra <;> rw [hcontra] at hv
    · rw [sysError_invalid] at hv
      exact absurd hv (by simp)
    · rw [apology_invalid] at hv
      exact absurd hv (by simp)
  · have hh : (chars "您好～我了解您提到「").length = 10 := by decide
    have ht : (chars "」，雖然我這裡沒有找到確切的建議，但請您不用太擔心。先多喝點溫開水，好好休息。如果症狀持續或讓您很不舒服，建議和家人一起去看醫師。如果還有其他不舒服，也可以再問我喔，我會陪著您 😊").length = 90 := by decide
    have hs : systemErrorMsg.length = 14 := by decide
    have ha : apologyMsg.length = 22 := by decide
    constructor <;> intro hcontra <;> rw [hf] at hcontra <;>
      have hl := congrArg List.length hcontra <;>
      simp only [to_traditional, List.length_map, fallback_response,
        List.length_append] at hl <;> omega

/-! ## Claim theorems -/

/-- C1 (counterexample): the claim "for every user input, the fallback is
accepted by the validator" fails on the code: the template echoes the user
input, so an input containing the danger word 癌 makes
`fallback_response` itself contain a danger word and `is_valid_response`
rejects it. -/
theorem C1_counterexample :
    is_valid_response (fallback_response (chars "癌")) 50 = false := by
  decide

/-- C1 (amended): for every user text that itself contains no danger word,
no nonsense word, and no simplified spot-check character,
`fallback_response(userText)` is accepted by `is_valid_response` with the
default minimum length 50, and contains the user text as a substring. -/
theorem C1_fallback_accepted (userText : List Char)
    (hWords : hasWordIn (DANGER_WORDS ++ NONSENSE_WORDS) userText = false)
    (hSimp : contains_simplified_chinese userText = false) :
    is_valid_response (fallback_response userText) 50 = true
      ∧ userText <:+: fallback_response userText :=
  ⟨fallback_response_valid hWords hSimp, input_infix_fallback userText⟩

/-- C1 (witness): the amended statement at the concrete input 我肚子痛. -/
theorem C1_fallback_accepted_witness :
    is_valid_response (fallback_response (chars "我肚子痛")) 50 = true
      ∧ (chars "我肚子痛") <:+: fallback_response (chars "我肚子痛") :=
  C1_fallback_accepted (chars "我肚子痛") (by decide) (by decide)

/-- C2 (counterexample): the claim "the generator is invoked at most twice
per request" fails: with four invalid generator responses, one CLI request
issues four generator invocations, because `query_ollama_cli` retries once
internally and `run_cli` then calls `query_ollama_cli` a second time, which
retries internally again. -/
theorem C2_counterexample :
    (run_cli_step [] [some (chars "不知道"), some (chars "不知道"),
        some (chars "不知道"), some (chars "不知道")] (chars "身體不舒服")).calls = 4
    ∧ ¬ ((run_cli_step [] [some (chars "不知道"), some (chars "不知道"),
        some (chars "不知道"), some (chars "不知道")] (chars "身體不舒服")).calls ≤ 2) := by
  decide

/-- C2 (amended): for every knowledge-base-missing request, the generator is
invoked at most FOUR times in total: each of the two orchestrator-level
`query_ollama_cli` calls can issue up to two POST requests (one initial plus
one internal hint retry); the orchestration never proceeds to a fifth
generator invocation. -/
theorem C2_generator_call_bound (db : List (List Char × AdviceRecord))
    (oracle : List (Option (List Char))) (question : List Char) :
    (run_cli_step db oracle question).calls ≤ 4 :=
  run_cli_step_calls_le db oracle question

/-- C3 (counterexample): the claim "every returned text has passed through
the Script Normalizer" fails on the knowledge-base-hit path: `run_cli`
prints the formatted record without `to_traditional`, so a record containing
the simplified character 后 yields a reply that is not a fixed point of
`to_traditional`. -/
theorem C3_counterexample :
    to_traditional ((run_cli_step [(chars "肚子痛",
        (⟨[chars "可能是后背拉傷"], [], [], none⟩ : AdviceRecord))] []
        (chars "肚子痛")).reply)
      ≠ (run_cli_step [(chars "肚子痛",
        (⟨[chars "可能是后背拉傷"], [], [], none⟩ : AdviceRecord))] []
        (chars "肚子痛")).reply := by
  decide

/-- C3 (amended): on the generated, generated-after-hint and fallback paths
the final text equals `to_traditional` of the candidate and is therefore a
fixed point of `to_traditional`; on the knowledge-base-hit path the
formatted record is returned as-is, without passing through the Script
Normalizer. -/
theorem C3_normalizer_paths (db : List (List Char × AdviceRecord))
    (oracle : List (Option (List Char))) (question : List Char) :
    (lookup_medical_db db (some question) = none →
      to_traditional (run_cli_step db oracle question).reply
        = (run_cli_step db oracle question).reply)
    ∧ ∀ r, lookup_medical_db db (some question) = some r →
        (run_cli_step db oracle question).reply = r := by
  constructor
  · intro hdb
    rw [run_cli_step_miss db oracle question hdb]
    by_cases h1 : is_valid_response
        (query_ollama_cli (build_cli_prompt question) oracle).reply
    · simp only [h1, if_true]
      exact to_traditional_idem _
    · by_cases h2 : is_valid_response (query_ollama_cli
          (build_cli_prompt question ++ (chars "\n" ++ FALLBACK_HINT))
          (query_ollama_cli (build_cli_prompt question) oracle).rest).reply
      · simp only [h1, if_false]
        simp only [List.append_assoc]
        simp only [h2, if_true]
        exact to_traditional_idem _
      · simp [h1, h2]
        exact to_traditional_idem _
  · intro r hdb
    rw [run_cli_step_db_hit hdb]

/-- C3 (witness): the amended statement at concrete inputs: a miss
(我睡不好 against the modelled knowledge base, empty oracle) gives a
normalization fixed point, and a hit (肚子痛) returns the formatted record
unchanged. -/
theorem C3_normalizer_paths_witness :
    (to_traditional (run_cli_step medical_db [] (chars "我睡不好")).reply
      = (run_cli_step medical_db [] (chars "我睡不好")).reply)
    ∧ (run_cli_step medical_db [] (chars "我肚子痛")).reply
        = format_response dbStomachache :=
  ⟨(C3_normalizer_paths medical_db [] (chars "我睡不好")).1 (by decide),
   (C3_normalizer_paths medical_db [] (chars "我肚子痛")).2
     (format_response dbStomachache) (by decide)⟩

/-- C4: `is_valid_response(text, minLength)` returns true exactly when the
text is non-empty, contains no danger word, no nonsense word, and no
simplified spot-check character, and its stripped length is at least
`minLength`; in particular the four examples of the spec behave as
stated. -/
theorem C4_validator_characterization :
    (∀ (text : List Char) (n : Nat),
      is_valid_response text n = true ↔
        (text ≠ [] ∧ hasWordIn DANGER_WORDS text = false
          ∧ hasWordIn NONSENSE_WORDS text = false
          ∧ contains_simplified_chinese text = false
          ∧ n ≤ (pyStrip text).length))
    ∧ is_valid_response (chars "") 50 = false
    ∧ is_valid_response (chars "太短") 50 = false
    ∧ is_valid_response (List.replicate 59 '好' ++ [ '癌' ]) 50 = false
    ∧ (List.replicate 59 '好' ++ [ '癌' ]).length = 60
    ∧ is_valid_response (List.replicate 60 '好') 50 = true
    ∧ (List.replicate 60 '好').length = 60 := by
  refine ⟨fun text n => is_valid_response_iff, ?_, ?_, ?_, ?_, ?_, ?_⟩ <;> decide

/-- C5 (counterexample): the claim "every formatted advice record passes the
validator" fails: a record whose `possible_causes` item contains the danger
word 癌 formats to a text the validator rejects. -/
theorem C5_counterexample :
    is_valid_response (format_response
      (⟨[chars "可能是癌症"], [], [], none⟩ : AdviceRecord)) 50 = false := by
  decide

/-- C5 (amended): every advice record whose field strings (items of the
three lists and the encouragement or its default) contain no danger word,
no nonsense word, and no simplified spot-check character formats to a text
accepted by the validator with the default minimum length 50. -/
theorem C5_format_accepted (e : AdviceRecord)
    (hw : ∀ f ∈ recordStrings e,
      hasWordIn (DANGER_WORDS ++ NONSENSE_WORDS) f = false)
    (hs : ∀ f ∈ recordStrings e, contains_simplified_chinese f = false) :
    is_valid_response (format_response e) 50 = true :=
  format_response_valid hw hs

/-- C5 (witness): the amended statement at the modelled 肚子痛 record. -/
theorem C5_format_accepted_witness :
    is_valid_response (format_response dbStomachache) 50 = true :=
  C5_format_accepted dbStomachache (by decide) (by decide)

/-- C6: `lookup_medical_db` returns the formatted record of the first key in
iteration order whose key or synonym occurs as a substring of the stripped
user text (characterized by `List.find?`), and returns `none`, without
raising, on `None`, on the empty string, on blank input, and when no
keyword matches. -/
theorem C6_lookup_characterization :
    (∀ (db : List (List Char × AdviceRecord)) (t : List Char), t ≠ [] →
      lookup_medical_db db (some t)
        = (db.find? (fun p => keywordMatches p.1 (pyStrip t))).map
            (fun p => format_response p.2))
    ∧ (∀ db : List (List Char × AdviceRecord), lookup_medical_db db none = none)
    ∧ (∀ db : List (List Char × AdviceRecord),
        lookup_medical_db db (some (chars "")) = none)
    ∧ lookup_medical_db medical_db (some (chars "   ")) = none
    ∧ lookup_medical_db medical_db (some (chars "我睡不好")) = none := by
  refine ⟨?_, fun db => rfl, fun db => rfl, by decide, by decide⟩
  intro db t ht
  simp only [lookup_medical_db, if_neg ht]
  exact lookupFind_eq_find db (pyStrip t)

/-- C6 (witness): the first-match characterization at a concrete input. -/
theorem C6_lookup_characterization_witness :
    lookup_medical_db medical_db (some (chars "頭好暈"))
      = (medical_db.find? (fun p => keywordMatches p.1 (pyStrip (chars "頭好暈")))).map
          (fun p => format_response p.2) :=
  C6_lookup_characterization.1 medical_db (chars "頭好暈") (by decide)

/-- C7: `lookup("我肚子痛又拉肚子")` returns the formatted 肚子痛 record
(first match in iteration order, although 拉肚子 also occurs), and
`lookup("腹瀉很嚴重")` returns the formatted 拉肚子 record via its synonym
腹瀉. -/
theorem C7_lookup_examples :
    lookup_medical_db medical_db (some (chars "我肚子痛又拉肚子"))
        = some (format_response dbStomachache)
    ∧ lookup_medical_db medical_db (some (chars "我肚子痛又拉肚子")) ≠ none
    ∧ lookup_medical_db medical_db (some (chars "腹瀉很嚴重"))
        = some (format_response dbDiarrhea) := by
  decide

/-- C8: the user-visible reply of one CLI iteration is never one of the
hard-coded wrapper error strings (the system-error message or the apology),
and whenever the knowledge base misses and every generator outcome is
unusable (transport failure or invalid text), the reply is exactly the
normalized fallback template. -/
theorem C8_no_raw_errors :
    (∀ (db : List (List Char × AdviceRecord)) (oracle : List (Option (List Char)))
        (question : List Char),
      (run_cli_step db oracle question).reply ≠ systemErrorMsg
        ∧ (run_cli_step db oracle question).reply ≠ apologyMsg)
    ∧ (∀ (db : List (List Char × AdviceRecord)) (oracle : List (Option (List Char)))
        (question : List Char),
      lookup_medical_db db (some question) = none →
      (∀ resp ∈ oracle, unusable resp = true) →
      (run_cli_step db oracle question).reply
        = to_traditional (fallback_response question)) :=
  ⟨run_cli_step_ne_errors, fun _ _ _ hdb hun =>
    run_cli_step_all_unusable hdb hun⟩

/-- C8 (witness): a run in which the first generator call fails in transport
and the second returns danger-laden text ends in exactly the normalized
fallback template. -/
theorem C8_no_raw_errors_witness :
    (run_cli_step [] [none, some (chars "癌症末期很危險")] (chars "睡不著")).reply
      = to_traditional (fallback_response (chars "睡不著")) :=
  C8_no_raw_errors.2 [] [none, some (chars "癌症末期很危險")] (chars "睡不著")
    (by decide) (by decide)

/-- C9 (counterexample): the claim "validate returns a tagged verdict that
carries the named reason of the first failing check and is never reduced to
a bare boolean" fails on the code: `is_valid_response` returns a bare
boolean, and the spec's distinguishable verdicts `Rejected(empty_or_non_text)`
(for "") and `Rejected(too_short)` (for "太短") are the very same return
value `False`, so the returned verdict carries no reason. -/
theorem C9_counterexample :
    is_valid_response (chars "") 50 = false
    ∧ is_valid_response (chars "太短") 50 = false
    ∧ is_valid_response (chars "") 50 = is_valid_response (chars "太短") 50 := by
  decide

/-- C9 (amended): `is_valid_response` returns a bare boolean; rejection
reasons surface only as log messages, emitted for the first failing check in
the order: empty text (no log at all), danger-or-nonsense word (one shared
message), wrong script, too short. -/
theorem C9_logging_characterization :
    ∀ (text : List Char) (n : Nat),
      (is_valid_response_logged text n).1 = is_valid_response text n
      ∧ ((is_valid_response_logged text n).2 = none
          ↔ (text = [] ∨ is_valid_response text n = true))
      ∧ ((is_valid_response_logged text n).2 = some ValidationLog.dangerOrNonsenseLog
          ↔ (text ≠ [] ∧ hasWordIn (DANGER_WORDS ++ NONSENSE_WORDS) text = true))
      ∧ ((is_valid_response_logged text n).2 = some ValidationLog.wrongScriptLog
          ↔ (text ≠ [] ∧ hasWordIn (DANGER_WORDS ++ NONSENSE_WORDS) text = false
              ∧ contains_simplified_chinese text = true))
      ∧ ((is_valid_response_logged text n).2 = some ValidationLog.tooShortLog
          ↔ (text ≠ [] ∧ hasWordIn (DANGER_WORDS ++ NONSENSE_WORDS) text = false
              ∧ contains_simplified_chinese text = false
              ∧ (pyStrip text).length < n)) := by
  intro text n
  unfold is_valid_response_logged is_valid_response
  by_cases h1 : text = []
  · simp [h1]
  · by_cases h2 : hasWordIn (DANGER_WORDS ++ NONSENSE_WORDS) text = true
    · simp [h1, h2]
    · have h2f : hasWordIn (DANGER_WORDS ++ NONSENSE_WORDS) text = false := by
        simpa using h2
      by_cases h3 : contains_simplified_chinese text = true
      · simp [h1, h2f, h3]
      · have h3f : contains_simplified_chinese text = false := by simpa using h3
        by_cases h4 : (pyStrip text).length < n
        · simp [h1, h2f, h3f, h4]
        · simp [h1, h2f, h3f, h4]

/-- C10: `load_medical_db` degrades a missing file and caught read errors to
an empty mapping with a log signal — but the claim "never raises to its
caller" is contradicted by the code: on content that is not valid UTF-8,
reading inside `json.load` raises `UnicodeDecodeError`, which the
`except (json.JSONDecodeError, OSError)` clause does not catch, so the
exception escapes, against the function's own docstring
(安全讀取 JSON 知識庫，若失敗則回傳空字典). -/
theorem C10_load_db_behavior :
    load_medical_db KbFile.missing = Except.ok ([], [LoadLog.missingWarning])
    ∧ load_medical_db KbFile.osError = Except.ok ([], [LoadLog.readError])
    ∧ load_medical_db KbFile.badJson = Except.ok ([], [LoadLog.readError])
    ∧ load_medical_db KbFile.badEncoding = Except.error PyExc.unicodeDecodeError :=
  ⟨rfl, rfl, rfl, rfl⟩

end MedAssist
